import Mathlib

/-!
Shallow embedding of the sGPUpt preparation tool (`src/main.rs`): the PCI
listing parser (`get_pci_devices`), the patch engine
(`replace_string_in_file`, `qemu_patch`, `edk2_patch`), the repository
acquisition step (`repo_clone`), the build invocations (`qemu_compile`,
`edk2_compile`) and the sequencing of `main`.  Text is modelled as
`List Char`; the file system as a partial map from paths to text.
-/

namespace SGpuPt

/-- ASCII whitespace, as relevant to the device-listing text (the ASCII
fragment of Rust `char::is_whitespace`). -/
def isWS (c : Char) : Bool :=
  c = ' ' || c = '\t' || c = '\n' || c = '\r' || c = '\x0b' || c = '\x0c'

/-- Worker for `splitWS`: `cur` holds the current word, reversed. -/
def splitWSAux : List Char → List Char → List (List Char)
  | cur, [] => if cur = [] then [] else [cur.reverse]
  | cur, c :: rest =>
    if isWS c then
      if cur = [] then splitWSAux [] rest else cur.reverse :: splitWSAux [] rest
    else splitWSAux (c :: cur) rest

/-- Rust `str::split_whitespace`: the maximal non-whitespace words of a
line, in order, with no empty words. -/
def splitWS (l : List Char) : List (List Char) := splitWSAux [] l

/-- Split on every single `'\n'` (Rust `str::split('\n')`). -/
def splitNL : List Char → List (List Char)
  | [] => [[]]
  | c :: rest =>
    if c = '\n' then
      [] :: splitNL rest
    else
      match splitNL rest with
      | [] => [[c]]
      | p :: ps => (c :: p) :: ps

/-- Split on every occurrence of the two-character separator `"\n\n"`,
left to right and non-overlapping (Rust `str::split("\n\n")`). -/
def splitBlocks : List Char → List (List Char)
  | [] => [[]]
  | '\n' :: '\n' :: rest => [] :: splitBlocks rest
  | c :: rest =>
    match splitBlocks rest with
    | [] => [[c]]
    | p :: ps => (c :: p) :: ps

/-- Separators used on a `Slot:` value (Rust `|c| c == '.' || c == ':'`). -/
def isSlotSep (c : Char) : Bool := c = '.' || c = ':'

/-- Split a slot value on `.` or `:` (Rust `str::split` with a char
predicate; consecutive separators yield empty pieces). -/
def splitSlot : List Char → List (List Char)
  | [] => [[]]
  | c :: rest =>
    if isSlotSep c then
      [] :: splitSlot rest
    else
      match splitSlot rest with
      | [] => [[c]]
      | p :: ps => (c :: p) :: ps

/-- Strip a single trailing `'\r'` (what Rust `str::lines` does per line). -/
def stripCR (l : List Char) : List Char :=
  if l.getLast? = some '\r' then l.dropLast else l

/-- Rust `str::lines`: split on `'\n'`, drop the final empty piece produced
by a trailing newline, and strip one trailing `'\r'` per line. -/
def rustLines (s : List Char) : List (List Char) :=
  let ps := splitNL s
  (if ps.getLast? = some [] then ps.dropLast else ps).map stripCR

/-- Rust `str::trim_end_matches('\n')`: drop every trailing newline. -/
def trimEndNL (s : List Char) : List Char :=
  (s.reverse.dropWhile (fun c => c = '\n')).reverse

/-- Value of a hexadecimal digit character. -/
def hexDigitVal (c : Char) : Option Nat :=
  if '0' ≤ c ∧ c ≤ '9' then some (c.toNat - '0'.toNat)
  else if 'a' ≤ c ∧ c ≤ 'f' then some (c.toNat - 'a'.toNat + 10)
  else if 'A' ≤ c ∧ c ≤ 'F' then some (c.toNat - 'A'.toNat + 10)
  else none

/-- Value of a decimal digit character. -/
def decDigitVal (c : Char) : Option Nat :=
  if '0' ≤ c ∧ c ≤ '9' then some (c.toNat - '0'.toNat) else none

/-- Accumulate digit values left to right; `none` on any non-digit. -/
def digitsValAux (digit : Char → Option Nat) (radix : Nat) : Nat → List Char → Option Nat
  | acc, [] => some acc
  | acc, c :: rest =>
    match digit c with
    | none => none
    | some d => digitsValAux digit radix (acc * radix + d) rest

/-- Digit-string value; `none` when empty or containing a non-digit. -/
def digitsVal (digit : Char → Option Nat) (radix : Nat) (s : List Char) : Option Nat :=
  if s = [] then none else digitsValAux digit radix 0 s

/-- Drop one optional leading `'+'` sign (accepted by Rust's unsigned
integer parsers). -/
def stripPlus (s : List Char) : List Char :=
  match s with
  | [] => s
  | c :: rest => if c = '+' then rest else s

/-- Rust `u8::from_str_radix` / `str::parse::<u8>`: optional leading `+`,
then one or more digits in the radix; fails (`none`) for an empty digit
string, an invalid digit (including a `-` sign) or a value above
`u8::MAX = 255`. -/
def u8FromStr (digit : Char → Option Nat) (radix : Nat) (s : List Char) : Option Nat :=
  match digitsVal digit radix (stripPlus s) with
  | some v => if v ≤ 255 then some v else none
  | none => none

/-- One record per block of `lspci -vmm` output (struct `PciDevice`). -/
structure PciDevice where
  bus : Nat
  device : Nat
  function : Nat
  pciClass : List Char
  vendor : List Char
  deviceName : List Char
  svendor : List Char
  sdevice : List Char
  iommugroup : Nat
deriving DecidableEq

/-- `PciDevice::default()`: numeric fields 0, text fields empty. -/
def PciDevice.default : PciDevice :=
  ⟨0, 0, 0, [], [], [], [], [], 0⟩

/-- The `match key { ... }` of `get_pci_devices`: dispatch on the key
and update the record. -/
def applyKV (dev : PciDevice) (key value : List Char) : PciDevice :=
  if key = "Slot:".data then
    match splitSlot value with
    | b :: d :: f :: _ =>
      { dev with
        bus := (u8FromStr hexDigitVal 16 b).getD 0
        device := (u8FromStr hexDigitVal 16 d).getD 0
        function := (u8FromStr hexDigitVal 16 f).getD 0 }
    | _ => dev
  else if key = "Class:".data then { dev with pciClass := value }
  else if key = "Vendor:".data then { dev with vendor := value }
  else if key = "Device:".data then { dev with deviceName := value }
  else if key = "SVendor:".data then { dev with svendor := value }
  else if key = "SDevice:".data then { dev with sdevice := value }
  else if key = "IOMMUGroup:".data then
    { dev with iommugroup := (u8FromStr decDigitVal 10 value).getD 0 }
  else dev

/-- One iteration of the line loop of `get_pci_devices`: split the line on
whitespace; with at least two parts, dispatch on the key, rejoining the
value words with single spaces. -/
def applyLine (dev : PciDevice) (line : List Char) : PciDevice :=
  match splitWS line with
  | key :: v1 :: vs => applyKV dev key (List.intercalate [' '] (v1 :: vs))
  | _ => dev

/-- Parse one device block: fold the line handler over the block's lines,
starting from the default record. -/
def parseBlock (block : List Char) : PciDevice :=
  (rustLines block).foldl applyLine PciDevice.default

/-- The parsing core of `get_pci_devices`, applied to the text that
`lspci -vmm` wrote to standard output: trim trailing newlines, split into
blank-line-delimited blocks, parse each block. -/
def get_pci_devices (out : List Char) : List PciDevice :=
  (splitBlocks (trimEndNL out)).map parseBlock

/-- A line is recognized when it has at least two whitespace-separated
parts and its first part is one of the seven keys of `get_pci_devices`. -/
def lineRecognized (line : List Char) : Bool :=
  match splitWS line with
  | key :: _ :: _ =>
    key = "Slot:".data || key = "Class:".data || key = "Vendor:".data ||
    key = "Device:".data || key = "SVendor:".data || key = "SDevice:".data ||
    key = "IOMMUGroup:".data
  | _ => false

/-- Worker for `replaceAll`: a positive `skip` means that many head
characters still belong to an already-matched occurrence and are
consumed without another match attempt. -/
def replWalk (pat repl : List Char) : Nat → List Char → List Char
  | _, [] => []
  | skip+1, _ :: rest => replWalk pat repl skip rest
  | 0, c :: rest =>
    if pat.isPrefixOf (c :: rest) then
      repl ++ replWalk pat repl (pat.length - 1) rest
    else
      c :: replWalk pat repl 0 rest

/-- Non-overlapping left-to-right replacement of every occurrence of `pat`
by `repl`, mirroring Rust `str::replace` for the non-empty patterns this
program uses (every pattern in the patch tables is non-empty). -/
def replaceAll (pat repl l : List Char) : List Char :=
  replWalk pat repl 0 l

/-- `pat` occurs as a contiguous sublist. -/
def containsSub (pat : List Char) : List Char → Bool
  | [] => pat.isPrefixOf ([] : List Char)
  | c :: rest => pat.isPrefixOf (c :: rest) || containsSub pat rest

/-- Worker for `countOcc`, with the same `skip` convention as
`replWalk`. -/
def countWalk (pat : List Char) : Nat → List Char → Nat
  | _, [] => 0
  | skip+1, _ :: rest => countWalk pat skip rest
  | 0, c :: rest =>
    if pat.isPrefixOf (c :: rest) then
      1 + countWalk pat (pat.length - 1) rest
    else
      countWalk pat 0 rest

/-- Number of non-overlapping left-to-right occurrences of `pat`. -/
def countOcc (pat l : List Char) : Nat :=
  countWalk pat 0 l

/-- Modelled from the spec: "replace the first and only expected literal
occurrence of `exactOldText` with `exactNewText`" — replacement of the
first occurrence only.  To be compared with `replaceAll`, the behaviour of
the source's `str::replace`. -/
def replaceFirst (pat repl : List Char) : List Char → List Char
  | [] => []
  | c :: rest =>
    if pat.isPrefixOf (c :: rest) then
      repl ++ List.drop (pat.length - 1) rest
    else
      c :: replaceFirst pat repl rest

/-- The file system as the patch engine sees it: text content by path. -/
def FSMap := List Char → Option (List Char)

/-- Overwrite one path's content (`std::fs::write`). -/
def FSMap.update (fs : FSMap) (p : List Char) (content : List Char) : FSMap :=
  fun q => if q = p then some content else fs q

/-- Failure conditions of the patch phase. -/
inductive PatchErr where
  /-- The target file could not be read (`?` on `fs::read_to_string`);
  the spec's `PatchTargetMissing`. -/
  | targetMissing (path : List Char)
  /-- The marker file already exists; the spec's `AlreadyPatched`. -/
  | alreadyPatched (name : List Char)
deriving DecidableEq

/-- One substitution triple of the hard-coded patch tables. -/
structure Subst where
  sub_dir : List Char
  old_string : List Char
  new_string : List Char

/-- `replace_string_in_file`: read the file at `base_dir.join(sub_dir)`
fully, `replace` the old text by the new text, write the file back in
full.  The only failure is the read.  For the paths this program uses,
`base_dir` ends in `/`, so the join is concatenation.  Returns the file
system after the call together with the error, if any. -/
def replace_string_in_file (fs : FSMap) (base_dir sub_dir old_string new_string : List Char) :
    FSMap × Option PatchErr :=
  match fs (base_dir ++ sub_dir) with
  | none => (fs, some (PatchErr.targetMissing (base_dir ++ sub_dir)))
  | some content =>
    (fs.update (base_dir ++ sub_dir) (replaceAll old_string new_string content), none)

/-- Apply substitutions in order; the first failure stops the sequence
(`?` after each `replace_string_in_file` call), keeping the modifications
already made. -/
def applySubs (fs : FSMap) (base_dir : List Char) : List Subst → FSMap × Option PatchErr
  | [] => (fs, none)
  | s :: rest =>
    match replace_string_in_file fs base_dir s.sub_dir s.old_string s.new_string with
    | (fs', none) => applySubs fs' base_dir rest
    | (fs', some e) => (fs', some e)

/-- The `Repo` struct. -/
structure Repo where
  url : List Char
  path : List Char
  tag : List Char
  patch_diff : List Nat
  name : List Char

/-- `format!("{}/{}_patch_marker", repo.path.display(), repo.name)`. -/
def markerPath (repo : Repo) : List Char :=
  repo.path ++ "/".data ++ repo.name ++ "_patch_marker".data

/-- Shared shape of `qemu_patch` and `edk2_patch`: fail fast when the
marker exists, otherwise apply every substitution and only then create the
empty marker file. -/
def runPatch (repo : Repo) (subs : List Subst) (fs : FSMap) : FSMap × Option PatchErr :=
  if (fs (markerPath repo)).isSome then
    (fs, some (PatchErr.alreadyPatched repo.name))
  else
    match applySubs fs repo.path subs with
    | (fs', none) => (fs'.update (markerPath repo) [], none)
    | (fs', some e) => (fs', some e)

/-- The thirteen substitutions hard-coded in `qemu_patch`. -/
def qemuSubs : List Subst :=
  [ ⟨"block/bochs.c".data,
     ".format_name\t= \"bochs\",".data,
     ".format_name\t= \"woots\",".data⟩,
    ⟨"hw/i386/fw_cfg.c".data,
     "* DMA control register is located at FW_CFG_DMA_IO_BASE + 4\n */".data,
     "* DMA control register is located at FW_CFG_DMA_IO_BASE + 4".data⟩,
    ⟨"hw/i386/fw_cfg.c".data,
     "/* device present, functioning, decoding, not shown in UI */".data,
     "/* device present, functioning, decoding, not shown in UI ".data⟩,
    ⟨"hw/i386/fw_cfg.c".data,
     "aml_append(scope, dev);".data,
     "aml_append(scope, dev); */".data⟩,
    ⟨"hw/scsi/scsi-disk.c".data,
     "s->vendor = g_strdup(\"QEMU\");".data,
     "s->vendor = g_strdup(\"<WOOT>\");".data⟩,
    ⟨"hw/scsi/scsi-disk.c".data,
     "s->product = g_strdup(\"QEMU HARDDISK\");".data,
     "s->product = g_strdup(\"WDC WD20EARS\");".data⟩,
    ⟨"hw/scsi/scsi-disk.c".data,
     "s->product = g_strdup(\"QEMU CD-ROM\");".data,
     "s->product = g_strdup(\"TOSHIBA DVD-ROM\");".data⟩,
    ⟨"hw/smbios/smbios.c".data,
     "t->bios_characteristics_extension_bytes[1] = 0x14;".data,
     "t->bios_characteristics_extension_bytes[1] = 0x08;".data⟩,
    ⟨"hw/usb/dev-wacom.c".data,
     "QEMU PenPartner tablet".data,
     "WOOT PenPartner tablet".data⟩,
    ⟨"hw/usb/dev-wacom.c".data,
     "QEMU PenPartner Tablet".data,
     "WOOT PenPartner Tablet".data⟩,
    ⟨"hw/usb/dev-wacom.c".data,
     "[STR_MANUFACTURER]     = \"QEMU\",".data,
     "[STR_MANUFACTURER]     = \"WOOT\",".data⟩,
    ⟨"include/hw/acpi/aml-build.h".data,
     "#define ACPI_BUILD_APPNAME6 \"BOCHS \"\n#define ACPI_BUILD_APPNAME4 \"BXPC\"".data,
     "#define ACPI_BUILD_APPNAME6 \"ALASKA \"\n#define ACPI_BUILD_APPNAME4 \"RCKS\"".data⟩,
    ⟨"target/i386/kvm/kvm.c".data,
     "KVMKVMKVM\\0\\0\\0".data,
     "GenuineIntel".data⟩ ]

/-- The five substitutions hard-coded in `edk2_patch`. -/
def edk2Subs : List Subst :=
  [ ⟨"MdeModulePkg/MdeModulePkg.dec".data,
     "gEfiMdeModulePkgTokenSpaceGuid.PcdAcpiDefaultOemTableId|0x20202020324B4445|UINT64|0x30001035".data,
     "gEfiMdeModulePkgTokenSpaceGuid.PcdAcpiDefaultOemTableId|0x20202020324B4544|UINT64|0x30001035".data⟩,
    ⟨"OvmfPkg/AcpiTables/Dsdt.asl".data,
     "DefinitionBlock (\"Dsdt.aml\", \"DSDT\", 1, \"INTEL \", \"OVMF    \", 4)".data,
     "DefinitionBlock (\"Dsdt.aml\", \"DSDT\", 1, \"INTEL \", \"WOOT    \", 4)".data⟩,
    ⟨"OvmfPkg/AcpiTables/Platform.h".data,
     "#define EFI_ACPI_OEM_ID           \x27O\x27,\x27V\x27,\x27M\x27,\x27F\x27,\x27 \x27,\x27 \x27   // OEMID 6 bytes long\n#define EFI_ACPI_OEM_TABLE_ID     SIGNATURE_64(\x27O\x27,\x27V\x27,\x27M\x27,\x27F\x27,\x27E\x27,\x27D\x27,\x27K\x27,\x272\x27) // OEM table id 8 bytes long\n#define EFI_ACPI_OEM_REVISION     0x20130221\n#define EFI_ACPI_CREATOR_ID       SIGNATURE_32(\x27O\x27,\x27V\x27,\x27M\x27,\x27F\x27)\n#define EFI_ACPI_CREATOR_REVISION 0x00000099".data,
     "#define EFI_ACPI_OEM_ID           \x27W\x27,\x27O\x27,\x27O\x27,\x27T\x27,\x27 \x27,\x27 \x27   // OEMID 6 bytes long\n#define EFI_ACPI_OEM_TABLE_ID     SIGNATURE_64(\x27W\x27,\x27O\x27,\x27O\x27,\x27T\x27,\x27N\x27,\x27O\x27,\x27O\x27,\x27B\x27) // OEM table id 8 bytes long\n#define EFI_ACPI_OEM_REVISION     0x20201230\n#define EFI_ACPI_CREATOR_ID       SIGNATURE_32(\x27N\x27,\x27O\x27,\x27O\x27,\x27B\x27)\n#define EFI_ACPI_CREATOR_REVISION 0x00000098".data⟩,
    ⟨"OvmfPkg/AcpiTables/Ssdt.asl".data,
     "DefinitionBlock (\"Ssdt.aml\", \"SSDT\", 1, \"REDHAT \", \"OVMF    \", 4)".data,
     "DefinitionBlock (\"Ssdt.aml\", \"SSDT\", 1, \"<WOOT> \", \"WOOT    \", 4)".data⟩,
    ⟨"OvmfPkg/SmbiosPlatformDxe/SmbiosPlatformDxe.c".data,
     "  \"EFI Development Kit II / OVMF\\0\"     /* Vendor */ \n  \"0.0.0\\0\"                             /* BiosVersion */ \n  \"02/06/2015\\0\"                        /* BiosReleaseDate */".data,
     "  \"American Megatrends Inc. NOOP\\0\"     /* Vendor */ \n  \"1.6.0\\0\"                             /* BiosVersion */ \n  \"12/01/2020\\0\"                        /* BiosReleaseDate */".data⟩ ]

/-- `qemu_patch`: marker gate, the thirteen qemu substitutions, marker
creation. -/
def qemu_patch (repo : Repo) (fs : FSMap) : FSMap × Option PatchErr :=
  runPatch repo qemuSubs fs

/-- `edk2_patch`: marker gate, the five edk2 substitutions, marker
creation. -/
def edk2_patch (repo : Repo) (fs : FSMap) : FSMap × Option PatchErr :=
  runPatch repo edk2Subs fs

/-- The `qemu_repo` value built in `main` (its `patch_diff` field holds
whatever `./qemu.patch` contained at run time). -/
def qemu_repo (diff : List Nat) : Repo :=
  ⟨"https://github.com/qemu/qemu.git".data, "./qemu/".data, "v8.0.3".data, diff, "qemu".data⟩

/-- The `edk2_repo` value built in `main`. -/
def edk2_repo (diff : List Nat) : Repo :=
  ⟨"https://github.com/tianocore/edk2.git".data, "./edk2/".data,
   "edk2-stable202011".data, diff, "edk2".data⟩

/-- Rust `str::trim` (whitespace from both ends). -/
def rustTrim (s : List Char) : List Char :=
  ((s.dropWhile isWS).reverse.dropWhile isWS).reverse

/-- Rust `str::to_lowercase` on the ASCII range. -/
def rustToLower (s : List Char) : List Char := s.map Char.toLower

/-- External actions `repo_clone` can take, in order of occurrence. -/
inductive CloneAction where
  /-- The interactive re-clone prompt printed to standard output. -/
  | prompt (name : List Char)
  /-- `fs::remove_dir_all` of the tree directory. -/
  | removeDirAll (path : List Char)
  /-- `RepoBuilder::clone(url, path)`. -/
  | gitClone (url : List Char) (path : List Char)
  /-- `checkout_tree` of the revision named by the tag. -/
  | checkoutTree (tag : List Char)
deriving DecidableEq

/-- `repo_clone`: `pathExists` abstracts `Path::exists` on the tree
directory, `stdinLine` the result of `read_line` (`none` models a read
error, which the source only logs, leaving `clone` at its initial
`true`).  Returns the external actions attempted, in order; the clone and
checkout happen exactly when the `clone` flag survives as `true`. -/
def repo_clone (repo : Repo) (pathExists : Bool) (stdinLine : Option (List Char)) :
    List CloneAction :=
  let actsClone :=
    if pathExists then
      match stdinLine with
      | some input =>
        let response := rustToLower (rustTrim input)
        if response = "yes".data ∨ response = "y".data then
          ([CloneAction.prompt repo.name, CloneAction.removeDirAll repo.path], true)
        else
          ([CloneAction.prompt repo.name], false)
      | none => ([CloneAction.prompt repo.name], true)
    else
      (([] : List CloneAction), true)
  if actsClone.2 then
    actsClone.1 ++ [CloneAction.gitClone repo.url repo.path, CloneAction.checkoutTree repo.tag]
  else
    actsClone.1

/-- An external command: program, arguments, working directory. -/
structure Cmd where
  program : List Char
  args : List (List Char)
  workdir : List Char
deriving DecidableEq

/-- Outcome of `Command::spawn`: the OS either started the child or
failed to; the child's eventual exit status is not part of this type
because the source never looks at it. -/
inductive SpawnRes where
  | ok
  | failed (msg : List Char)
deriving DecidableEq

/-- The configure command of `qemu_compile`. -/
def qemuConfigureCmd (qemu : Repo) : Cmd :=
  ⟨"./configure".data, ["--enable-spice".data, "--disable-werror".data], qemu.path⟩

/-- The make command of `qemu_compile` (parallelism from the logical CPU
count). -/
def qemuMakeCmd (qemu : Repo) (cpuThreads : Nat) : Cmd :=
  ⟨"make".data, ["-j".data ++ (Nat.repr cpuThreads).data, "-C".data, "BaseTools".data],
   qemu.path⟩

/-- `qemu_compile`: spawn configure, then spawn make; each `spawn()?`
propagates only a spawn failure.  Returns the commands spawned, in order,
and the error if a spawn failed. -/
def qemu_compile (qemu : Repo) (cpuThreads : Nat) (res : Cmd → SpawnRes) :
    List Cmd × Option (List Char) :=
  match res (qemuConfigureCmd qemu) with
  | SpawnRes.failed m => ([qemuConfigureCmd qemu], some m)
  | SpawnRes.ok =>
    match res (qemuMakeCmd qemu cpuThreads) with
    | SpawnRes.failed m => ([qemuConfigureCmd qemu, qemuMakeCmd qemu cpuThreads], some m)
    | SpawnRes.ok => ([qemuConfigureCmd qemu, qemuMakeCmd qemu cpuThreads], none)

/-- The BaseTools make command of `edk2_compile`. -/
def edk2MakeCmd (edk2 : Repo) (cpuThreads : Nat) : Cmd :=
  ⟨"make".data, ["-j".data ++ (Nat.repr cpuThreads).data, "-C".data, "BaseTools".data],
   edk2.path⟩

/-- The edksetup command of `edk2_compile`. -/
def edk2SetupCmd (edk2 : Repo) : Cmd :=
  ⟨". edksetup.sh".data, [], edk2.path⟩

/-- The build command of `edk2_compile`.  Its working directory is
`edk2.path.join("/OvmfPkg")`; joining an absolute path replaces the base,
so the working directory is `/OvmfPkg`. -/
def edk2BuildCmd : Cmd :=
  ⟨". build.sh".data,
   ["-p".data, "./OvmfPkgX64.dsc".data, "-a".data, "X64".data,
    "-b".data, "RELEASE".data, "-t".data, "GCC5".data],
   "/OvmfPkg".data⟩

/-- `edk2_compile`: spawn make, edksetup, build in order; each `spawn()?`
propagates only a spawn failure. -/
def edk2_compile (edk2 : Repo) (cpuThreads : Nat) (res : Cmd → SpawnRes) :
    List Cmd × Option (List Char) :=
  match res (edk2MakeCmd edk2 cpuThreads) with
  | SpawnRes.failed m => ([edk2MakeCmd edk2 cpuThreads], some m)
  | SpawnRes.ok =>
    match res (edk2SetupCmd edk2) with
    | SpawnRes.failed m => ([edk2MakeCmd edk2 cpuThreads, edk2SetupCmd edk2], some m)
    | SpawnRes.ok =>
      match res edk2BuildCmd with
      | SpawnRes.failed m =>
        ([edk2MakeCmd edk2 cpuThreads, edk2SetupCmd edk2, edk2BuildCmd], some m)
      | SpawnRes.ok =>
        ([edk2MakeCmd edk2 cpuThreads, edk2SetupCmd edk2, edk2BuildCmd], none)

/-- The steps of `main` from the security checks onward, in source
order. -/
inductive MainStep where
  /-- `security_checks(cpu_flags)?` (the function always returns `Ok`). -/
  | securityChecks
  /-- `std::fs::read(Path::new("./qemu.patch")).unwrap()` while building
  `qemu_repo`. -/
  | readQemuPatchFile
  /-- `repo_clone(&qemu_repo)?`. -/
  | qemuClone
  /-- `qemu_patch(&qemu_repo)?`. -/
  | qemuPatchStep
  /-- `qemu_compile(&qemu_repo, cpu_threads)?`. -/
  | qemuCompileStep
  /-- `std::fs::read(Path::new("./edk2.patch")).unwrap()` while building
  `edk2_repo`. -/
  | readEdk2PatchFile
  /-- `repo_clone(&edk2_repo)?`. -/
  | edk2Clone
  /-- `edk2_patch(&edk2_repo)?`. -/
  | edk2PatchStep
  /-- `edk2_compile(&edk2_repo, cpu_threads)?`. -/
  | edk2CompileStep
  /-- `install_packages(PACKAGES)?`. -/
  | installPackagesStep
deriving DecidableEq

/-- How a step of `main` ends: `ok` continues, `err` makes `main` return
the error through `?`, `panicked` aborts the process (`unwrap`). -/
inductive StepOutcome where
  | ok
  | err
  | panicked
deriving DecidableEq

/-- How a whole run of `main` ends. -/
inductive RunEnd where
  | completed
  | errored (s : MainStep)
  | panicked (s : MainStep)
deriving DecidableEq

/-- The environment of one run: whether the two patch files exist, and
the result of each fallible phase (`none` = success, `some e` = the error
the phase returned). -/
structure MainEnv where
  qemuPatchFilePresent : Bool
  edk2PatchFilePresent : Bool
  qemuCloneRes : Option (List Char)
  qemuPatchRes : Option (List Char)
  qemuCompileRes : Option (List Char)
  edk2CloneRes : Option (List Char)
  edk2PatchRes : Option (List Char)
  edk2CompileRes : Option (List Char)
  installRes : Option (List Char)

/-- Outcome of each step of `main` in a given environment.  The security
checks only log, so they always succeed; the two patch-file reads use
`unwrap`, so a missing file panics and can never surface as an `Err`; the
remaining steps propagate their phase's error through `?`. -/
def outcomeOf (env : MainEnv) : MainStep → StepOutcome
  | MainStep.securityChecks => StepOutcome.ok
  | MainStep.readQemuPatchFile =>
    if env.qemuPatchFilePresent then StepOutcome.ok else StepOutcome.panicked
  | MainStep.qemuClone =>
    match env.qemuCloneRes with | none => StepOutcome.ok | some _ => StepOutcome.err
  | MainStep.qemuPatchStep =>
    match env.qemuPatchRes with | none => StepOutcome.ok | some _ => StepOutcome.err
  | MainStep.qemuCompileStep =>
    match env.qemuCompileRes with | none => StepOutcome.ok | some _ => StepOutcome.err
  | MainStep.readEdk2PatchFile =>
    if env.edk2PatchFilePresent then StepOutcome.ok else StepOutcome.panicked
  | MainStep.edk2Clone =>
    match env.edk2CloneRes with | none => StepOutcome.ok | some _ => StepOutcome.err
  | MainStep.edk2PatchStep =>
    match env.edk2PatchRes with | none => StepOutcome.ok | some _ => StepOutcome.err
  | MainStep.edk2CompileStep =>
    match env.edk2CompileRes with | none => StepOutcome.ok | some _ => StepOutcome.err
  | MainStep.installPackagesStep =>
    match env.installRes with | none => StepOutcome.ok | some _ => StepOutcome.err

/-- The order in which `main` attempts its steps: qemu's patch file is
read while `qemu_repo` is constructed, before the qemu pipeline; edk2's
patch file is read while `edk2_repo` is constructed, which happens only
after the whole qemu pipeline has succeeded. -/
def mainOrder : List MainStep :=
  [MainStep.securityChecks, MainStep.readQemuPatchFile,
   MainStep.qemuClone, MainStep.qemuPatchStep, MainStep.qemuCompileStep,
   MainStep.readEdk2PatchFile,
   MainStep.edk2Clone, MainStep.edk2PatchStep, MainStep.edk2CompileStep,
   MainStep.installPackagesStep]

/-- Run steps in order, stopping at the first error or panic.  Returns
the steps attempted, in order, and how the run ended. -/
def runSteps (f : MainStep → StepOutcome) : List MainStep → List MainStep × RunEnd
  | [] => ([], RunEnd.completed)
  | s :: rest =>
    match f s with
    | StepOutcome.ok => (s :: (runSteps f rest).1, (runSteps f rest).2)
    | StepOutcome.err => ([s], RunEnd.errored s)
    | StepOutcome.panicked => ([s], RunEnd.panicked s)

/-- The sequencing of `main` over the modelled steps. -/
def runMain (env : MainEnv) : List MainStep × RunEnd :=
  runSteps (outcomeOf env) mainOrder

/-- Modelled from the spec: the decimal unsigned-integer value of a digit
string ("the value is parsed as a decimal unsigned integer"). -/
def decValue (ds : List Char) : Nat :=
  ds.foldl (fun a c => a * 10 + (c.toNat - '0'.toNat)) 0

/-! ## Lemmas about the replacement primitive -/

theorem replWalk_skip (pat repl : List Char) :
    ∀ (skip : Nat) (l : List Char),
      replWalk pat repl skip l = replWalk pat repl 0 (List.drop skip l) := by
  intro skip
  induction skip with
  | zero => intro l; rw [List.drop_zero]
  | succ k ih =>
    intro l
    cases l with
    | nil => simp [replWalk]
    | cons c rest => simp [replWalk, ih, List.drop_succ_cons]

theorem countWalk_skip (pat : List Char) :
    ∀ (skip : Nat) (l : List Char),
      countWalk pat skip l = countWalk pat 0 (List.drop skip l) := by
  intro skip
  induction skip with
  | zero => intro l; rw [List.drop_zero]
  | succ k ih =>
    intro l
    cases l with
    | nil => simp [countWalk]
    | cons c rest => simp [countWalk, ih, List.drop_succ_cons]

theorem replaceAll_cons (pat repl : List Char) (c : Char) (rest : List Char) :
    replaceAll pat repl (c :: rest)
      = if pat.isPrefixOf (c :: rest) then
          repl ++ replaceAll pat repl (List.drop (pat.length - 1) rest)
        else
          c :: replaceAll pat repl rest := by
  unfold replaceAll
  conv_lhs => rw [replWalk]
  rw [replWalk_skip]

theorem countOcc_cons (pat : List Char) (c : Char) (rest : List Char) :
    countOcc pat (c :: rest)
      = if pat.isPrefixOf (c :: rest) then
          1 + countOcc pat (List.drop (pat.length - 1) rest)
        else
          countOcc pat rest := by
  unfold countOcc
  conv_lhs => rw [countWalk]
  rw [countWalk_skip]

theorem containsSub_cons (pat : List Char) (c : Char) (rest : List Char) :
    containsSub pat (c :: rest) = (pat.isPrefixOf (c :: rest) || containsSub pat rest) := rfl

theorem replaceAll_of_not_contains (pat repl : List Char) :
    ∀ l : List Char, containsSub pat l = false → replaceAll pat repl l = l := by
  intro l
  induction l with
  | nil => intro _; rfl
  | cons c rest ih =>
    intro h
    rw [containsSub_cons, Bool.or_eq_false_iff] at h
    rw [replaceAll_cons, if_neg (by simp [h.1]), ih h.2]

theorem replaceAll_of_countOcc_zero (pat repl : List Char) :
    ∀ l : List Char, countOcc pat l = 0 → replaceAll pat repl l = l := by
  intro l
  induction l with
  | nil => intro _; rfl
  | cons c rest ih =>
    intro h
    rw [countOcc_cons] at h
    by_cases hp : pat.isPrefixOf (c :: rest) = true
    · rw [if_pos hp] at h; omega
    · rw [if_neg hp] at h
      rw [replaceAll_cons, if_neg hp, ih h]

theorem replaceAll_eq_replaceFirst (pat repl : List Char) :
    ∀ l : List Char, countOcc pat l = 1 → replaceAll pat repl l = replaceFirst pat repl l := by
  intro l
  induction l with
  | nil => intro h; rw [countOcc] at h; simp [countWalk] at h
  | cons c rest ih =>
    intro h
    rw [countOcc_cons] at h
    by_cases hp : pat.isPrefixOf (c :: rest) = true
    · rw [if_pos hp] at h
      have h0 : countOcc pat (List.drop (pat.length - 1) rest) = 0 := by omega
      rw [replaceAll_cons, if_pos hp, replaceAll_of_countOcc_zero pat repl _ h0,
        replaceFirst, if_pos hp]
    · rw [if_neg hp] at h
      rw [replaceAll_cons, if_neg hp, replaceFirst, if_neg hp, ih h]

/-! ## Lemmas about the patch phase -/

theorem applySubs_fst_apply (base k : List Char) :
    ∀ (subs : List Subst) (fs : FSMap), (∀ s ∈ subs, base ++ s.sub_dir ≠ k) →
      (applySubs fs base subs).1 k = fs k := by
  intro subs
  induction subs with
  | nil => intro fs _; rfl
  | cons s rest ih =>
    intro fs h
    rw [applySubs]
    cases hfile : fs (base ++ s.sub_dir) with
    | none => simp [replace_string_in_file, hfile]
    | some content =>
      simp only [replace_string_in_file, hfile]
      rw [ih (fs.update (base ++ s.sub_dir) (replaceAll s.old_string s.new_string content))
        (fun t ht => h t (List.mem_cons_of_mem s ht))]
      simp only [FSMap.update]
      rw [if_neg (fun hk => h s (List.mem_cons_self s rest) hk.symm)]

theorem markerPath_eq (repo : Repo) :
    markerPath repo = repo.path ++ '/' :: (repo.name ++ "_patch_marker".data) := by
  unfold markerPath
  rw [(by decide : "/".data = ['/'])]
  simp [List.append_assoc, List.singleton_append]

theorem path_append_ne_markerPath (repo : Repo) (sub : List Char)
    (h : sub.head? ≠ some '/') : repo.path ++ sub ≠ markerPath repo := by
  rw [markerPath_eq]
  intro he
  have hs := List.append_cancel_left he
  rw [hs] at h
  exact h rfl

theorem qemuSubs_sub_dir_head : ∀ s ∈ qemuSubs, s.sub_dir.head? ≠ some '/' := by decide

theorem edk2Subs_sub_dir_head : ∀ s ∈ edk2Subs, s.sub_dir.head? ≠ some '/' := by decide

theorem qemuSubs_target_ne_marker (repo : Repo) :
    ∀ s ∈ qemuSubs, repo.path ++ s.sub_dir ≠ markerPath repo :=
  fun s hs => path_append_ne_markerPath repo s.sub_dir (qemuSubs_sub_dir_head s hs)

theorem edk2Subs_target_ne_marker (repo : Repo) :
    ∀ s ∈ edk2Subs, repo.path ++ s.sub_dir ≠ markerPath repo :=
  fun s hs => path_append_ne_markerPath repo s.sub_dir (edk2Subs_sub_dir_head s hs)

/-! ## C2: re-running a substitution against an already-patched file -/

/-- C2: the claim says that applying a substitution whose `exactOldText`
has already been replaced surfaces a `PatchTextNotFound` error.  It is
false: re-running the first qemu substitution against an already-patched
`block/bochs.c` returns no error at all, and writes the file back with
its content unchanged. -/
theorem c2_counterexample :
    (replace_string_in_file
        (fun q => if q = "./qemu/block/bochs.c".data
                  then some (".format_name\t= \"woots\",".data) else none)
        "./qemu/".data "block/bochs.c".data
        ".format_name\t= \"bochs\",".data ".format_name\t= \"woots\",".data).2 = none
    ∧ (replace_string_in_file
        (fun q => if q = "./qemu/block/bochs.c".data
                  then some (".format_name\t= \"woots\",".data) else none)
        "./qemu/".data "block/bochs.c".data
        ".format_name\t= \"bochs\",".data ".format_name\t= \"woots\",".data).1
        ("./qemu/block/bochs.c".data)
      = some (".format_name\t= \"woots\",".data) := by
  constructor
  · rfl
  · decide

/-- C2 (amended): applying a substitution whose `exactOldText` no longer
occurs in the target file silently succeeds: `replace_string_in_file`
returns no error and writes the file back with identical content; no
`PatchTextNotFound` condition exists in the code. -/
theorem c2_silent_success :
    ∀ (fs : FSMap) (base sub old new content : List Char),
      fs (base ++ sub) = some content →
      containsSub old content = false →
      replace_string_in_file fs base sub old new
        = (fs.update (base ++ sub) content, none) := by
  intro fs base sub old new content hread hc
  simp only [replace_string_in_file, hread]
  rw [replaceAll_of_not_contains old new content hc]

theorem c2_silent_success_witness :
    replace_string_in_file
        (fun q => if q = "./qemu/block/bochs.c".data
                  then some (".format_name\t= \"woots\",".data) else none)
        "./qemu/".data "block/bochs.c".data
        ".format_name\t= \"bochs\",".data ".format_name\t= \"woots\",".data
      = (FSMap.update
          (fun q => if q = "./qemu/block/bochs.c".data
                    then some (".format_name\t= \"woots\",".data) else none)
          ("./qemu/".data ++ "block/bochs.c".data) (".format_name\t= \"woots\",".data),
         none) :=
  c2_silent_success _ _ _ _ _ _ (by decide) (by decide)

/-! ## C3: the patch engine's substitution semantics -/

/-- C3: substitutions are applied in the order given, with the first
failure stopping the sequence; each substitution reads the target file
fully, rewrites it in full, and fails with the `PatchTargetMissing`
condition exactly when the file cannot be read; on a file in which the
old text occurs exactly once, the write replaces that single occurrence
(the source's replace-all agrees with the spec's replace-the-first-and-
only-occurrence, `replaceFirst`). -/
theorem c3_patch_engine :
    (∀ (fs : FSMap) (base : List Char) (s : Subst) (rest : List Subst) (fs' : FSMap),
        replace_string_in_file fs base s.sub_dir s.old_string s.new_string = (fs', none) →
        applySubs fs base (s :: rest) = applySubs fs' base rest)
    ∧ (∀ (fs : FSMap) (base : List Char) (s : Subst) (rest : List Subst)
          (fs' : FSMap) (e : PatchErr),
        replace_string_in_file fs base s.sub_dir s.old_string s.new_string = (fs', some e) →
        applySubs fs base (s :: rest) = (fs', some e))
    ∧ (∀ (fs : FSMap) (base sub old new : List Char),
        fs (base ++ sub) = none →
        replace_string_in_file fs base sub old new
          = (fs, some (PatchErr.targetMissing (base ++ sub))))
    ∧ (∀ (fs : FSMap) (base sub old new content : List Char),
        fs (base ++ sub) = some content →
        countOcc old content = 1 →
        replace_string_in_file fs base sub old new
          = (fs.update (base ++ sub) (replaceFirst old new content), none)) := by
  refine ⟨?_, ?_, ?_, ?_⟩
  · intro fs base s rest fs' h
    rw [applySubs, h]
  · intro fs base s rest fs' e h
    rw [applySubs, h]
  · intro fs base sub old new h
    simp only [replace_string_in_file, h]
  · intro fs base sub old new content hread hcount
    simp only [replace_string_in_file, hread]
    rw [replaceAll_eq_replaceFirst old new content hcount]

theorem c3_patch_engine_witness :
    replace_string_in_file (fun _ => none) "./qemu/".data "block/bochs.c".data
        ".format_name\t= \"bochs\",".data ".format_name\t= \"woots\",".data
      = ((fun _ => none : FSMap),
         some (PatchErr.targetMissing ("./qemu/".data ++ "block/bochs.c".data)))
    ∧ replace_string_in_file
        (fun q => if q = "./qemu/block/bochs.c".data
                  then some ("x .format_name\t= \"bochs\", y".data) else none)
        "./qemu/".data "block/bochs.c".data
        ".format_name\t= \"bochs\",".data ".format_name\t= \"woots\",".data
      = (FSMap.update
          (fun q => if q = "./qemu/block/bochs.c".data
                    then some ("x .format_name\t= \"bochs\", y".data) else none)
          ("./qemu/".data ++ "block/bochs.c".data)
          (replaceFirst (".format_name\t= \"bochs\",".data)
            (".format_name\t= \"woots\",".data) ("x .format_name\t= \"bochs\", y".data)),
         none) :=
  ⟨c3_patch_engine.2.2.1 _ _ _ _ _ (by decide),
   c3_patch_engine.2.2.2 _ _ _ _ _ _ (by decide) (by decide)⟩

/-! ## C4: the patch-marker lifecycle -/

/-- C4: for every tree, when the marker file
`<localPath>/<name>_patch_marker` exists the Patch phase fails with
`AlreadyPatched` and leaves the file system exactly as it was; when the
marker is absent and every substitution succeeds, the only extra write is
the empty marker file, created after the substitutions; and when a
substitution fails, the phase returns that error and the marker is still
absent (the substitution targets never alias the marker path). -/
theorem c4_marker_lifecycle :
    ∀ (repo : Repo) (fs : FSMap),
      ((fs (markerPath repo)).isSome = true →
        qemu_patch repo fs = (fs, some (PatchErr.alreadyPatched repo.name))
        ∧ edk2_patch repo fs = (fs, some (PatchErr.alreadyPatched repo.name)))
      ∧ (∀ fs' : FSMap, fs (markerPath repo) = none →
          applySubs fs repo.path qemuSubs = (fs', none) →
          qemu_patch repo fs = (fs'.update (markerPath repo) [], none))
      ∧ (∀ (fs' : FSMap) (e : PatchErr), fs (markerPath repo) = none →
          applySubs fs repo.path qemuSubs = (fs', some e) →
          qemu_patch repo fs = (fs', some e) ∧ fs' (markerPath repo) = none)
      ∧ (∀ fs' : FSMap, fs (markerPath repo) = none →
          applySubs fs repo.path edk2Subs = (fs', none) →
          edk2_patch repo fs = (fs'.update (markerPath repo) [], none))
      ∧ (∀ (fs' : FSMap) (e : PatchErr), fs (markerPath repo) = none →
          applySubs fs repo.path edk2Subs = (fs', some e) →
          edk2_patch repo fs = (fs', some e) ∧ fs' (markerPath repo) = none) := by
  intro repo fs
  refine ⟨?_, ?_, ?_, ?_, ?_⟩
  · intro hm
    constructor
    · simp only [qemu_patch, runPatch, if_pos hm]
    · simp only [edk2_patch, runPatch, if_pos hm]
  · intro fs' hm happ
    simp [qemu_patch, runPatch, hm, happ]
  · intro fs' e hm happ
    constructor
    · simp [qemu_patch, runPatch, hm, happ]
    · have h1 := applySubs_fst_apply repo.path (markerPath repo) qemuSubs fs
        (qemuSubs_target_ne_marker repo)
      rw [happ] at h1
      exact h1.trans hm
  · intro fs' hm happ
    simp [edk2_patch, runPatch, hm, happ]
  · intro fs' e hm happ
    constructor
    · simp [edk2_patch, runPatch, hm, happ]
    · have h1 := applySubs_fst_apply repo.path (markerPath repo) edk2Subs fs
        (edk2Subs_target_ne_marker repo)
      rw [happ] at h1
      exact h1.trans hm

theorem c4_marker_lifecycle_witness :
    qemu_patch (qemu_repo []) (fun _ => none)
      = ((fun _ => none : FSMap),
         some (PatchErr.targetMissing ("./qemu/".data ++ "block/bochs.c".data)))
    ∧ (fun _ => (none : Option (List Char))) (markerPath (qemu_repo []))
      = none :=
  (c4_marker_lifecycle (qemu_repo []) (fun _ => none)).2.2.1
    (fun _ => none) (PatchErr.targetMissing ("./qemu/".data ++ "block/bochs.c".data))
    rfl rfl

/-! ## C5: the interactive re-clone prompt -/

/-- C5: when the tree directory already exists, `repo_clone` prompts the
operator; a response whose trimmed, lower-cased form is `y` or `yes`
(case-insensitive affirmative) deletes the directory recursively and
re-clones and checks out the tag, while any other response performs no
further action at all — no deletion, no clone, no checkout against the
tag. -/
theorem c5_reclone_prompt :
    ∀ (repo : Repo) (input : List Char),
      ((rustToLower (rustTrim input) = "yes".data ∨ rustToLower (rustTrim input) = "y".data) →
        repo_clone repo true (some input)
          = [CloneAction.prompt repo.name, CloneAction.removeDirAll repo.path,
             CloneAction.gitClone repo.url repo.path, CloneAction.checkoutTree repo.tag])
      ∧ (¬(rustToLower (rustTrim input) = "yes".data ∨ rustToLower (rustTrim input) = "y".data) →
        repo_clone repo true (some input) = [CloneAction.prompt repo.name]) := by
  intro repo input
  constructor
  · intro h
    simp [repo_clone, if_pos h]
  · intro h
    simp [repo_clone, if_neg h]

theorem c5_reclone_prompt_witness :
    repo_clone (qemu_repo []) true (some "  Y \n".data)
      = [CloneAction.prompt (qemu_repo []).name,
         CloneAction.removeDirAll (qemu_repo []).path,
         CloneAction.gitClone (qemu_repo []).url (qemu_repo []).path,
         CloneAction.checkoutTree (qemu_repo []).tag]
    ∧ repo_clone (qemu_repo []) true (some "no\n".data)
      = [CloneAction.prompt (qemu_repo []).name] :=
  ⟨(c5_reclone_prompt (qemu_repo []) ("  Y \n".data)).1 (by decide),
   (c5_reclone_prompt (qemu_repo []) ("no\n".data)).2 (by decide)⟩

/-! ## C9: the build phase never waits on the external processes -/

/-- C9: the build phase of both trees only spawns its external commands;
when every spawn succeeds the phase reports success immediately — the
exit status of the spawned processes is not even an input to the model,
because the source never waits on or inspects it — and an error is
reported exactly when some spawn itself failed. -/
theorem c9_build_fire_and_forget :
    ∀ (repo : Repo) (n : Nat) (res : Cmd → SpawnRes),
      ((∀ c : Cmd, res c = SpawnRes.ok) →
        (qemu_compile repo n res).2 = none ∧ (edk2_compile repo n res).2 = none)
      ∧ (∀ m : List Char, (qemu_compile repo n res).2 = some m →
          ∃ c : Cmd, res c = SpawnRes.failed m)
      ∧ (∀ m : List Char, (edk2_compile repo n res).2 = some m →
          ∃ c : Cmd, res c = SpawnRes.failed m) := by
  intro repo n res
  refine ⟨?_, ?_, ?_⟩
  · intro hall
    constructor
    · simp [qemu_compile, hall]
    · simp [edk2_compile, hall]
  · intro m h
    unfold qemu_compile at h
    cases h1 : res (qemuConfigureCmd repo) with
    | failed m1 => rw [h1] at h; simp at h; exact ⟨qemuConfigureCmd repo, by rw [h1, h]⟩
    | ok =>
      rw [h1] at h
      cases h2 : res (qemuMakeCmd repo n) with
      | failed m2 => rw [h2] at h; simp at h; exact ⟨qemuMakeCmd repo n, by rw [h2, h]⟩
      | ok => rw [h2] at h; simp at h
  · intro m h
    unfold edk2_compile at h
    cases h1 : res (edk2MakeCmd repo n) with
    | failed m1 => rw [h1] at h; simp at h; exact ⟨edk2MakeCmd repo n, by rw [h1, h]⟩
    | ok =>
      rw [h1] at h
      cases h2 : res (edk2SetupCmd repo) with
      | failed m2 => rw [h2] at h; simp at h; exact ⟨edk2SetupCmd repo, by rw [h2, h]⟩
      | ok =>
        rw [h2] at h
        cases h3 : res edk2BuildCmd with
        | failed m3 => rw [h3] at h; simp at h; exact ⟨edk2BuildCmd, by rw [h3, h]⟩
        | ok => rw [h3] at h; simp at h

theorem c9_build_fire_and_forget_witness :
    (qemu_compile (qemu_repo []) 8 (fun _ => SpawnRes.ok)).2 = none
    ∧ (edk2_compile (qemu_repo []) 8 (fun _ => SpawnRes.ok)).2 = none :=
  (c9_build_fire_and_forget (qemu_repo []) 8 (fun _ => SpawnRes.ok)).1 (fun _ => rfl)

/-! ## C1: a qemu failure terminates the whole run -/

/-- C1: the claim says that an error in the qemu tree's acquire, patch or
build phase aborts only that tree's pipeline and the driver still runs
the edk2 pipeline.  It is false: in a run where `repo_clone` for qemu
fails, `main` returns the error immediately and no edk2 step is ever
attempted. -/
theorem c1_counterexample :
    (runMain ⟨true, true, some "clone failed".data, none, none, none, none, none, none⟩).2
      = RunEnd.errored MainStep.qemuClone
    ∧ MainStep.edk2Clone
        ∉ (runMain ⟨true, true, some "clone failed".data, none, none, none, none, none, none⟩).1
    ∧ MainStep.edk2PatchStep
        ∉ (runMain ⟨true, true, some "clone failed".data, none, none, none, none, none, none⟩).1
    ∧ MainStep.edk2CompileStep
        ∉ (runMain ⟨true, true, some "clone failed".data, none, none, none, none, none, none⟩).1 := by
  refine ⟨rfl, ?_, ?_, ?_⟩ <;> decide

/-- C1 (amended): an error in the qemu tree's acquire, patch or build
phase makes `main` return that error through `?`, terminating the whole
run: none of the edk2 pipeline steps is attempted, and the edk2 pipeline
is reached only in runs where all three qemu phases succeeded. -/
theorem c1_qemu_error_terminates_run :
    ∀ env : MainEnv,
      (env.qemuPatchFilePresent = true →
        (env.qemuCloneRes ≠ none ∨ env.qemuPatchRes ≠ none ∨ env.qemuCompileRes ≠ none) →
        MainStep.edk2Clone ∉ (runMain env).1
        ∧ MainStep.edk2PatchStep ∉ (runMain env).1
        ∧ MainStep.edk2CompileStep ∉ (runMain env).1
        ∧ ((runMain env).2 = RunEnd.errored MainStep.qemuClone
            ∨ (runMain env).2 = RunEnd.errored MainStep.qemuPatchStep
            ∨ (runMain env).2 = RunEnd.errored MainStep.qemuCompileStep))
      ∧ (MainStep.edk2Clone ∈ (runMain env).1 →
          env.qemuCloneRes = none ∧ env.qemuPatchRes = none ∧ env.qemuCompileRes = none) := by
  intro env
  obtain ⟨qP, eP, qc, qp, qcm, ec, ep, ecm, ins⟩ := env
  constructor
  · intro hqP hbad
    subst hqP
    rcases qc with _ | e1 <;> rcases qp with _ | e2 <;> rcases qcm with _ | e3 <;>
      simp_all [runMain, mainOrder, runSteps, outcomeOf]
  · intro hmem
    cases qP <;> rcases qc with _ | e1 <;> rcases qp with _ | e2 <;> rcases qcm with _ | e3 <;>
      simp_all [runMain, mainOrder, runSteps, outcomeOf]

theorem c1_qemu_error_terminates_run_witness :
    MainStep.edk2Clone
      ∉ (runMain ⟨true, true, none, some "patch failed".data, none, none, none, none, none⟩).1
    ∧ MainStep.edk2PatchStep
        ∉ (runMain ⟨true, true, none, some "patch failed".data, none, none, none, none, none⟩).1
    ∧ MainStep.edk2CompileStep
        ∉ (runMain ⟨true, true, none, some "patch failed".data, none, none, none, none, none⟩).1
    ∧ ((runMain ⟨true, true, none, some "patch failed".data, none, none, none, none, none⟩).2
          = RunEnd.errored MainStep.qemuClone
        ∨ (runMain ⟨true, true, none, some "patch failed".data, none, none, none, none, none⟩).2
          = RunEnd.errored MainStep.qemuPatchStep
        ∨ (runMain ⟨true, true, none, some "patch failed".data, none, none, none, none, none⟩).2
          = RunEnd.errored MainStep.qemuCompileStep) :=
  (c1_qemu_error_terminates_run
      ⟨true, true, none, some "patch failed".data, none, none, none, none, none⟩).1
    rfl (Or.inr (Or.inl (by decide)))

/-! ## C10: the two patch-file reads -/

/-- C10: the claim says both `./qemu.patch` and `./edk2.patch` are read
before any pipeline phase on every run, panicking if either is missing.
It is false for `./edk2.patch`: in a run where the qemu clone fails and
`./edk2.patch` is missing, the run ends with the qemu clone error and the
edk2 patch file is never read — no panic happens. -/
theorem c10_counterexample :
    (runMain ⟨true, false, some "clone failed".data, none, none, none, none, none, none⟩).2
      = RunEnd.errored MainStep.qemuClone
    ∧ MainStep.readEdk2PatchFile
        ∉ (runMain ⟨true, false, some "clone failed".data, none, none, none, none, none, none⟩).1 := by
  refine ⟨rfl, ?_⟩; decide

/-- C10 (amended): each tree's patch file is read, with `unwrap`, while
that tree's `Repo` value is constructed: `./qemu.patch` is read on every
run before any pipeline phase and a missing file panics there, whereas
`./edk2.patch` is read only after the whole qemu pipeline has succeeded
(and panics at that point when missing); and `patch_diff` is never
applied — the patch phases ignore that field entirely. -/
theorem c10_patch_file_reads :
    (∀ env : MainEnv, env.qemuPatchFilePresent = false →
        runMain env = ([MainStep.securityChecks, MainStep.readQemuPatchFile],
                       RunEnd.panicked MainStep.readQemuPatchFile))
    ∧ (∀ env : MainEnv, MainStep.readQemuPatchFile ∈ (runMain env).1)
    ∧ (∀ env : MainEnv, env.qemuPatchFilePresent = true →
        env.qemuCloneRes = none → env.qemuPatchRes = none → env.qemuCompileRes = none →
        env.edk2PatchFilePresent = false →
        runMain env
          = ([MainStep.securityChecks, MainStep.readQemuPatchFile,
              MainStep.qemuClone, MainStep.qemuPatchStep, MainStep.qemuCompileStep,
              MainStep.readEdk2PatchFile],
             RunEnd.panicked MainStep.readEdk2PatchFile))
    ∧ (∀ (u p t n : List Char) (d d' : List Nat) (fs : FSMap),
        qemu_patch ⟨u, p, t, d, n⟩ fs = qemu_patch ⟨u, p, t, d', n⟩ fs
        ∧ edk2_patch ⟨u, p, t, d, n⟩ fs = edk2_patch ⟨u, p, t, d', n⟩ fs) := by
  refine ⟨?_, ?_, ?_, ?_⟩
  · intro env h
    obtain ⟨qP, eP, qc, qp, qcm, ec, ep, ecm, ins⟩ := env
    subst h
    rfl
  · intro env
    obtain ⟨qP, eP, qc, qp, qcm, ec, ep, ecm, ins⟩ := env
    cases qP <;> simp [runMain, mainOrder, runSteps, outcomeOf]
  · intro env h1 h2 h3 h4 h5
    obtain ⟨qP, eP, qc, qp, qcm, ec, ep, ecm, ins⟩ := env
    subst h1; subst h2; subst h3; subst h4; subst h5
    rfl
  · intro u p t n d d' fs
    exact ⟨rfl, rfl⟩

theorem c10_patch_file_reads_witness :
    runMain ⟨false, true, none, none, none, none, none, none, none⟩
      = ([MainStep.securityChecks, MainStep.readQemuPatchFile],
         RunEnd.panicked MainStep.readQemuPatchFile)
    ∧ runMain ⟨true, false, none, none, none, none, none, none, none⟩
      = ([MainStep.securityChecks, MainStep.readQemuPatchFile,
          MainStep.qemuClone, MainStep.qemuPatchStep, MainStep.qemuCompileStep,
          MainStep.readEdk2PatchFile],
         RunEnd.panicked MainStep.readEdk2PatchFile) :=
  ⟨c10_patch_file_reads.1 ⟨false, true, none, none, none, none, none, none, none⟩ rfl,
   c10_patch_file_reads.2.2.1 ⟨true, false, none, none, none, none, none, none, none⟩
     rfl rfl rfl rfl rfl⟩

/-! ## Lemmas about the device-listing parser -/

theorem mem_of_getLast? {l : List Char} {a : Char} (h : l.getLast? = some a) : a ∈ l := by
  have hx := List.mem_getLast?_eq_getLast (l := l) (x := a) (by rw [Option.mem_def]; exact h)
  obtain ⟨hh, rfl⟩ := hx
  exact List.getLast_mem hh

theorem splitNL_eq_single : ∀ l : List Char, '\n' ∉ l → splitNL l = [l] := by
  intro l
  induction l with
  | nil => intro _; rfl
  | cons c rest ih =>
    intro h
    have hc : ¬(c = '\n') := fun hh => h (hh ▸ List.mem_cons_self c rest)
    simp only [splitNL, if_neg hc, ih (fun hm => h (List.mem_cons_of_mem c hm))]

theorem rustLines_single (l : List Char) (hnl : '\n' ∉ l) (hne : l ≠ [])
    (hcr : l.getLast? ≠ some '\r') : rustLines l = [l] := by
  unfold rustLines
  simp only [splitNL_eq_single l hnl]
  rw [if_neg (by simp [hne])]
  simp [stripCR, hcr]

theorem splitWSAux_no_ws :
    ∀ l : List Char, (∀ c ∈ l, isWS c = false) → ∀ cur : List Char,
      splitWSAux cur l = if cur.reverse ++ l = [] then [] else [cur.reverse ++ l] := by
  intro l
  induction l with
  | nil =>
    intro _ cur
    by_cases hc : cur = []
    · subst hc; rfl
    · simp [splitWSAux, hc, List.reverse_eq_nil_iff]
  | cons c rest ih =>
    intro h cur
    have hc : isWS c = false := h c (List.mem_cons_self _ _)
    simp only [splitWSAux, hc, Bool.false_eq_true, if_false]
    rw [ih (fun x hx => h x (List.mem_cons_of_mem _ hx)) (c :: cur)]
    simp [List.append_assoc]

theorem splitWSAux_key_space (value : List Char) :
    ∀ key : List Char, (∀ c ∈ key, isWS c = false) → ∀ cur : List Char,
      splitWSAux cur (key ++ ' ' :: value)
        = (if cur.reverse ++ key = [] then ([] : List (List Char)) else [cur.reverse ++ key])
            ++ splitWSAux [] value := by
  intro key
  induction key with
  | nil =>
    intro _ cur
    by_cases hc : cur = []
    · subst hc
      simp [splitWSAux, (by decide : isWS ' ' = true)]
    · simp [splitWSAux, (by decide : isWS ' ' = true), hc, List.reverse_eq_nil_iff]
  | cons k ks ih =>
    intro h cur
    have hk : isWS k = false := h k (List.mem_cons_self _ _)
    simp only [List.cons_append, splitWSAux, hk, Bool.false_eq_true, if_false,
      List.append_eq]
    rw [ih (fun x hx => h x (List.mem_cons_of_mem _ hx)) (k :: cur)]
    simp [List.append_assoc]

theorem splitWS_keyval (key value : List Char) (hkey : ∀ c ∈ key, isWS c = false)
    (hkne : key ≠ []) (hval : ∀ c ∈ value, isWS c = false) (hvne : value ≠ []) :
    splitWS (key ++ ' ' :: value) = [key, value] := by
  unfold splitWS
  rw [splitWSAux_key_space value key hkey []]
  rw [splitWSAux_no_ws value hval []]
  simp [hkne, hvne]

theorem applyKV_unrecognized (dev : PciDevice) (key value : List Char)
    (h1 : ¬(key = "Slot:".data)) (h2 : ¬(key = "Class:".data))
    (h3 : ¬(key = "Vendor:".data)) (h4 : ¬(key = "Device:".data))
    (h5 : ¬(key = "SVendor:".data)) (h6 : ¬(key = "SDevice:".data))
    (h7 : ¬(key = "IOMMUGroup:".data)) : applyKV dev key value = dev := by
  unfold applyKV
  rw [if_neg h1, if_neg h2, if_neg h3, if_neg h4, if_neg h5, if_neg h6, if_neg h7]

theorem applyLine_unrecognized (dev : PciDevice) (line : List Char)
    (h : lineRecognized line = false) : applyLine dev line = dev := by
  unfold lineRecognized at h
  unfold applyLine
  cases hsp : splitWS line with
  | nil => rfl
  | cons key tail =>
    rw [hsp] at h
    cases tail with
    | nil => rfl
    | cons v1 vs =>
      simp only [Bool.or_eq_false_iff, decide_eq_false_iff_not] at h
      show applyKV dev key (List.intercalate [' '] (v1 :: vs)) = dev
      exact applyKV_unrecognized dev key _
        h.1.1.1.1.1.1 h.1.1.1.1.1.2 h.1.1.1.1.2 h.1.1.1.2 h.1.1.2 h.1.2 h.2

theorem foldl_applyLine_id :
    ∀ ls : List (List Char), (∀ l ∈ ls, lineRecognized l = false) →
      ∀ d : PciDevice, ls.foldl applyLine d = d := by
  intro ls
  induction ls with
  | nil => intro _ d; rfl
  | cons l rest ih =>
    intro h d
    rw [List.foldl_cons, applyLine_unrecognized d l (h l (List.mem_cons_self _ _)),
      ih (fun x hx => h x (List.mem_cons_of_mem _ hx)) d]

theorem trimEndNL_append_nl (out : List Char) :
    trimEndNL (out ++ ['\n']) = trimEndNL out := by
  unfold trimEndNL
  rw [List.reverse_append]
  simp only [List.reverse_cons, List.reverse_nil, List.nil_append, List.singleton_append]
  rw [List.dropWhile_cons_of_pos (by decide)]

/-! ## C6: block structure of the parser -/

/-- C6: the parser returns exactly one record per blank-line-delimited
block, in input order, and never fails; a block none of whose lines is
recognized still yields the all-default record; appending a trailing
newline to the input does not change the parse at all (so no spurious
empty trailing record appears), and when no block is empty the number of
records equals the number of non-empty blocks. -/
theorem c6_parser_blocks :
    (∀ out : List Char, get_pci_devices out = (splitBlocks (trimEndNL out)).map parseBlock)
    ∧ (∀ out : List Char, get_pci_devices (out ++ ['\n']) = get_pci_devices out)
    ∧ (∀ b : List Char, (∀ l ∈ rustLines b, lineRecognized l = false) →
        parseBlock b = PciDevice.default)
    ∧ (∀ out : List Char, (∀ b ∈ splitBlocks (trimEndNL out), b ≠ []) →
        (get_pci_devices out).length
          = ((splitBlocks (trimEndNL out)).filter (fun b => b ≠ [])).length) := by
  refine ⟨fun _ => rfl, ?_, ?_, ?_⟩
  · intro out
    unfold get_pci_devices
    rw [trimEndNL_append_nl]
  · intro b h
    exact foldl_applyLine_id (rustLines b) h PciDevice.default
  · intro out h
    have hf : (splitBlocks (trimEndNL out)).filter (fun b => b ≠ [])
        = splitBlocks (trimEndNL out) := by
      rw [List.filter_eq_self]
      intro a ha
      simpa using h a ha
    rw [hf]
    unfold get_pci_devices
    rw [List.length_map]

theorem c6_parser_blocks_witness :
    parseBlock ("lspci garbage with no keys".data) = PciDevice.default
    ∧ (get_pci_devices ("Slot: 00:01.0\n\nSlot: 00:02.0\n".data)).length
      = ((splitBlocks (trimEndNL ("Slot: 00:01.0\n\nSlot: 00:02.0\n".data))).filter
          (fun b => b ≠ [])).length :=
  ⟨c6_parser_blocks.2.2.1 ("lspci garbage with no keys".data) (by decide),
   c6_parser_blocks.2.2.2 ("Slot: 00:01.0\n\nSlot: 00:02.0\n".data) (by decide)⟩

/-! ## C7: slot-address decoding -/

/-- C7: a block whose `Slot:` value is `01:02.3` parses to bus `0x01`,
device `0x02`, function `0x03`, and a malformed slot value with fewer
than three components (`01`) leaves all three numeric fields 0. -/
theorem c7_slot_decoding :
    parseBlock ("Slot: 01:02.3".data)
      = { PciDevice.default with bus := 0x01, device := 0x02, function := 0x03 }
    ∧ parseBlock ("Slot: 01".data) = PciDevice.default := by
  constructor <;> decide

/-! ## C8: the IOMMU group field -/

theorem digit_not_ws (c : Char) (h0 : '0' ≤ c) (h9 : c ≤ '9') : isWS c = false := by
  have a1 : ¬(c = ' ') := by rintro rfl; exact absurd h0 (by decide)
  have a2 : ¬(c = '\t') := by rintro rfl; exact absurd h0 (by decide)
  have a3 : ¬(c = '\n') := by rintro rfl; exact absurd h0 (by decide)
  have a4 : ¬(c = '\r') := by rintro rfl; exact absurd h0 (by decide)
  have a5 : ¬(c = '\x0b') := by rintro rfl; exact absurd h0 (by decide)
  have a6 : ¬(c = '\x0c') := by rintro rfl; exact absurd h0 (by decide)
  simp [isWS, a1, a2, a3, a4, a5, a6]

theorem digitsValAux_all_digits :
    ∀ ds : List Char, (∀ c ∈ ds, '0' ≤ c ∧ c ≤ '9') → ∀ acc : Nat,
      digitsValAux decDigitVal 10 acc ds
        = some (ds.foldl (fun a c => a * 10 + (c.toNat - '0'.toNat)) acc) := by
  intro ds
  induction ds with
  | nil => intro _ acc; rfl
  | cons c rest ih =>
    intro h acc
    have hc := h c (List.mem_cons_self _ _)
    have hstep : digitsValAux decDigitVal 10 acc (c :: rest)
        = digitsValAux decDigitVal 10 (acc * 10 + (c.toNat - '0'.toNat)) rest := by
      simp only [digitsValAux, decDigitVal]
      rw [if_pos hc]
    rw [hstep, ih (fun x hx => h x (List.mem_cons_of_mem _ hx)) _, List.foldl_cons]

theorem u8FromStr_digits (ds : List Char) (hne : ds ≠ [])
    (h : ∀ c ∈ ds, '0' ≤ c ∧ c ≤ '9') :
    u8FromStr decDigitVal 10 ds
      = if decValue ds ≤ 255 then some (decValue ds) else none := by
  have hsp : stripPlus ds = ds := by
    cases ds with
    | nil => rfl
    | cons c rest =>
      have hc := (h c (List.mem_cons_self _ _)).1
      simp only [stripPlus]
      rw [if_neg (by rintro rfl; exact absurd hc (by decide))]
  unfold u8FromStr
  rw [hsp]
  unfold digitsVal
  rw [if_neg hne, digitsValAux_all_digits ds h 0]
  show (if decValue ds ≤ 255 then some (decValue ds) else none) = _
  rfl

theorem applyKV_iommu (dev : PciDevice) (value : List Char) :
    applyKV dev ("IOMMUGroup:".data) value
      = { dev with iommugroup := (u8FromStr decDigitVal 10 value).getD 0 } := by
  unfold applyKV
  rw [if_neg (by decide), if_neg (by decide), if_neg (by decide), if_neg (by decide),
    if_neg (by decide), if_neg (by decide), if_pos rfl]

/-- C8: the claim says every decimal unsigned integer value of an
`IOMMUGroup:` line is stored faithfully.  It is false: the source parses
the value with `parse::<u8>()`, so the decimal value 300 — a perfectly
good decimal unsigned integer, but above `u8::MAX` — fails to parse and
the field silently defaults to 0. -/
theorem c8_counterexample :
    decValue ("300".data) = 300
    ∧ (parseBlock ("IOMMUGroup: 300".data)).iommugroup = 0
    ∧ (300 : Nat) ≠ 0 := by
  refine ⟨by decide, by decide, by decide⟩

/-- C8 (amended): the `IOMMUGroup:` value is parsed as a decimal `u8`:
for a single-token value the field stores the parse result, defaulting
to 0 when the parse fails (absent, malformed, or overflowing); on an
all-digit value the parse succeeds exactly when the decimal value is at
most `u8::MAX = 255`, and only then is the value stored faithfully. -/
theorem c8_iommu_u8 :
    (∀ value : List Char, value ≠ [] → (∀ c ∈ value, isWS c = false) →
        (parseBlock ("IOMMUGroup: ".data ++ value)).iommugroup
          = (u8FromStr decDigitVal 10 value).getD 0)
    ∧ (∀ ds : List Char, ds ≠ [] → (∀ c ∈ ds, '0' ≤ c ∧ c ≤ '9') →
        u8FromStr decDigitVal 10 ds
          = if decValue ds ≤ 255 then some (decValue ds) else none) := by
  constructor
  · intro value hne hws
    have hline : "IOMMUGroup: ".data ++ value = "IOMMUGroup:".data ++ ' ' :: value := by
      rw [(by decide : "IOMMUGroup: ".data = "IOMMUGroup:".data ++ [' '])]
      rw [List.append_assoc, List.singleton_append]
    rw [hline]
    have hnl : '\n' ∉ "IOMMUGroup:".data ++ ' ' :: value := by
      intro hm
      rcases List.mem_append.mp hm with hm | hm
      · exact absurd hm (by decide)
      · rcases List.mem_cons.mp hm with hm | hm
        · exact absurd hm (by decide)
        · exact absurd (hws _ hm) (by decide)
    have hne2 : "IOMMUGroup:".data ++ ' ' :: value ≠ [] := by simp
    have hcr : ("IOMMUGroup:".data ++ ' ' :: value).getLast? ≠ some '\r' := by
      rw [← hline, List.getLast?_append_of_ne_nil _ hne]
      intro hlast
      exact absurd (hws '\r' (mem_of_getLast? hlast)) (by decide)
    unfold parseBlock
    rw [rustLines_single _ hnl hne2 hcr, List.foldl_cons, List.foldl_nil]
    unfold applyLine
    rw [splitWS_keyval ("IOMMUGroup:".data) value (by decide) (by decide) hws hne]
    show (applyKV PciDevice.default ("IOMMUGroup:".data)
      (List.intercalate [' '] [value])).iommugroup = _
    rw [(by simp [List.intercalate] : List.intercalate [' '] [value] = value)]
    rw [applyKV_iommu]
  · intro ds hne h
    exact u8FromStr_digits ds hne h

theorem c8_iommu_u8_witness :
    (parseBlock ("IOMMUGroup: ".data ++ "42".data)).iommugroup
      = (u8FromStr decDigitVal 10 ("42".data)).getD 0
    ∧ u8FromStr decDigitVal 10 ("42".data)
      = if decValue ("42".data) ≤ 255 then some (decValue ("42".data)) else none :=
  ⟨c8_iommu_u8.1 ("42".data) (by decide) (by decide),
   c8_iommu_u8.2 ("42".data) (by decide) (by decide)⟩

end SGpuPt
